import Mathlib

/-!
Verification of the clipboard-utility core (clip-scribe-plus-now).

Shallow embedding of the components referenced by the claims:

* `ClipboardItem` / `ClipboardManager` from `src/core/clipboard_manager.py`
  (history, undo/redo stacks, copy-to-clipboard, the polling loop's
  per-tick emission logic, and the attribute-shadowing of the
  `stop_monitoring` method by the `threading.Event` of the same name);
* `Plugin` / `PluginManager` from `src/core/plugin_manager.py`
  (load/enable and the clipboard-change fan-out with per-plugin
  exception isolation);
* `HotkeyManager` from `src/core/hotkeys.py` (chord normalization,
  registration and chord dispatch).

Python lists used as stacks push and pop at the *end* (`append` / `pop()`),
so stacks are Lean lists whose top is the last element; `pop(0)` removes
the head.  Python exceptions are modelled with `Except`.  Python `dict`s
(insertion-ordered, unique keys) are modelled as association lists with
in-place update.
-/

/-- Python dict lookup `d.get(k)` on an insertion-ordered association list. -/
def dictGet {κ α : Type} [DecidableEq κ] : List (κ × α) → κ → Option α
  | [], _ => none
  | (k', v) :: t, k => if k' = k then some v else dictGet t k

/-- Python dict update `d[k] = v`: replaces in place if the key exists
(keeping its position), otherwise appends at the end. -/
def dictSet {κ α : Type} [DecidableEq κ] : List (κ × α) → κ → α → List (κ × α)
  | [], k, v => [(k, v)]
  | (k', v') :: t, k, v => if k' = k then (k, v) :: t else (k', v') :: dictSet t k v

lemma dictGet_dictSet_self {κ α : Type} [DecidableEq κ] (d : List (κ × α)) (k : κ) (v : α) :
    dictGet (dictSet d k v) k = some v := by
  induction d with
  | nil => simp [dictGet, dictSet]
  | cons h t ih =>
    obtain ⟨k', v'⟩ := h
    by_cases hk : k' = k <;> simp [dictGet, dictSet, hk, ih]

/-- Models `ClipboardItem` (src/core/clipboard_manager.py, lines 16-42):
a content payload with a content-type tag (`"text"`, `"image"`, or any
other string), a creation timestamp, free-form tags and a favorite flag.
The payload is modelled as a `String`: the text value for text items, an
opaque payload identifier for image and other items. -/
structure ClipboardItem where
  content : String
  content_type : String
  timestamp : Nat
  tags : List String
  favorite : Bool
  deriving DecidableEq

/-- Builds a text `ClipboardItem` as `ClipboardItem(s, 'text')` does
(timestamp taken at construction, modelled as 0; no tags; not favorite). -/
def mkText (s : String) : ClipboardItem :=
  { content := s, content_type := "text", timestamp := 0, tags := [], favorite := false }

/-- State of a `ClipboardManager` (src/core/clipboard_manager.py, lines
45-71) together with the OS clipboard it mutates through tkinter
(`clipboard_clear` / `clipboard_append`), modelled as `os_clipboard`
(`none` = unknown/empty, `some c` = the manager last wrote payload `c`). -/
structure ClipboardManager where
  max_history : Nat
  history : List ClipboardItem
  current_index : Int
  undo_stack : List ClipboardItem
  redo_stack : List ClipboardItem
  os_clipboard : Option String
  deriving DecidableEq

/-- `ClipboardManager.__init__(max_history)` (lines 51-71): empty history,
`current_index = -1`, empty undo/redo stacks; the OS clipboard starts
unknown. -/
def ClipboardManager.init (max_history : Nat) : ClipboardManager :=
  { max_history := max_history, history := [], current_index := -1,
    undo_stack := [], redo_stack := [], os_clipboard := none }

/-- `ClipboardManager._add_to_history` (lines 151-167): clear the redo
stack, append the item to `history`, `pop(0)` when the length exceeds
`max_history`, and point `current_index` at the newest entry. -/
def ClipboardManager.add_to_history (st : ClipboardManager) (item : ClipboardItem) :
    ClipboardManager :=
  let history := st.history ++ [item]
  let history := if history.length > st.max_history then history.tail else history
  { st with redo_stack := [], history := history,
            current_index := (history.length : Int) - 1 }

/-- `ClipboardManager.copy_to_clipboard` (lines 169-184): for text and
image items, clear the OS clipboard and append the item's content; for
any other content type the OS clipboard is left untouched.  In every case
the item is appended to `undo_stack`. -/
def ClipboardManager.copy_to_clipboard (st : ClipboardManager) (item : ClipboardItem) :
    ClipboardManager :=
  { st with
    os_clipboard :=
      if item.content_type = "text" then some item.content
      else if item.content_type = "image" then some item.content
      else st.os_clipboard,
    undo_stack := st.undo_stack ++ [item] }

/-- `ClipboardManager.undo` (lines 186-203): if `undo_stack` is empty
return `None`; otherwise pop its top, push the popped item onto
`redo_stack`, and if `undo_stack` is still non-empty re-apply its new top
through `copy_to_clipboard` (which appends that top to `undo_stack`
again) and return it, else return `None`. -/
def ClipboardManager.undo (st : ClipboardManager) :
    ClipboardManager × Option ClipboardItem :=
  match st.undo_stack.getLast? with
  | none => (st, none)
  | some item =>
    let st1 : ClipboardManager :=
      { st with undo_stack := st.undo_stack.dropLast,
                redo_stack := st.redo_stack ++ [item] }
    match st1.undo_stack.getLast? with
    | none => (st1, none)
    | some prev => (st1.copy_to_clipboard prev, some prev)

/-- `ClipboardManager.redo` (lines 205-218): if `redo_stack` is empty
return `None`; otherwise pop its top, push it onto `undo_stack`, and
re-apply it through `copy_to_clipboard` (which appends it to
`undo_stack` a second time), returning the popped item. -/
def ClipboardManager.redo (st : ClipboardManager) :
    ClipboardManager × Option ClipboardItem :=
  match st.redo_stack.getLast? with
  | none => (st, none)
  | some item =>
    let st1 : ClipboardManager :=
      { st with redo_stack := st.redo_stack.dropLast,
                undo_stack := st.undo_stack ++ [item] }
    (st1.copy_to_clipboard item, some item)

/-- Outcome of the clipboard read attempts at the start of one iteration
of `_monitor_clipboard` (lines 113-125): the text read succeeds, the text
read fails but the image read succeeds, or both fail for this tick. -/
inductive ClipboardRead where
  | text (s : String)
  | image (payload : String)
  | failed
  deriving DecidableEq

/-- One iteration of the polling loop `_monitor_clipboard` (lines
103-149), as a function of the tracked `last_content` and the tick's read
outcome.  Returns the emitted snapshot (if the change test at lines
128-131 passes) and the updated `last_content` (line 143: the current
text when the emitted item is text, `None` after an emitted image,
unchanged when nothing is emitted). -/
def ClipboardManager.monitor_tick (last_content : Option String) (read : ClipboardRead) :
    Option ClipboardItem × Option String :=
  match read with
  | .failed => (none, last_content)
  | .text s =>
    if last_content = none ∨ some s ≠ last_content then
      (some (mkText s), some s)
    else
      (none, last_content)
  | .image p =>
    (some { content := p, content_type := "image", timestamp := 0,
            tags := [], favorite := false }, none)

/-- Emission condition of claim C6, written from the spec's words: a new
snapshot is emitted iff (a) the read succeeds and no prior content was
recorded, or (b) the content type is text and its value differs from the
last recorded text, or (c) the content type is image. -/
def emits_per_spec (last_content : Option String) (read : ClipboardRead) : Bool :=
  match read with
  | .failed => false
  | .text s => decide (last_content = none) || decide (some s ≠ last_content)
  | .image _ => true

lemma copy_to_clipboard_undo_stack (st : ClipboardManager) (item : ClipboardItem) :
    (st.copy_to_clipboard item).undo_stack = st.undo_stack ++ [item] := rfl

lemma copy_to_clipboard_redo_stack (st : ClipboardManager) (item : ClipboardItem) :
    (st.copy_to_clipboard item).redo_stack = st.redo_stack := rfl

lemma copy_to_clipboard_os (st : ClipboardManager) (item : ClipboardItem) :
    (st.copy_to_clipboard item).os_clipboard =
      (if item.content_type = "text" then some item.content
       else if item.content_type = "image" then some item.content
       else st.os_clipboard) := rfl

lemma undo_stack_nil (st : ClipboardManager) (h : st.undo_stack = []) :
    st.undo = (st, none) := by
  unfold ClipboardManager.undo
  rw [h]
  rfl

lemma undo_stack_singleton (st : ClipboardManager) (x : ClipboardItem)
    (h : st.undo_stack = [x]) :
    st.undo = ({ st with undo_stack := [], redo_stack := st.redo_stack ++ [x] }, none) := by
  unfold ClipboardManager.undo
  rw [h]
  rfl

lemma undo_stack_concat_concat (st : ClipboardManager) (u : List ClipboardItem)
    (p x : ClipboardItem) (h : st.undo_stack = u ++ [p] ++ [x]) :
    st.undo = ({ st with undo_stack := u ++ [p] ++ [p],
                         redo_stack := st.redo_stack ++ [x],
                         os_clipboard := (st.copy_to_clipboard p).os_clipboard }, some p) := by
  unfold ClipboardManager.undo
  rw [h, List.getLast?_concat]
  simp only [List.dropLast_concat, List.getLast?_concat]
  rfl

lemma redo_stack_nil (st : ClipboardManager) (h : st.redo_stack = []) :
    st.redo = (st, none) := by
  unfold ClipboardManager.redo
  rw [h]
  rfl

lemma redo_stack_concat (st : ClipboardManager) (r : List ClipboardItem)
    (x : ClipboardItem) (h : st.redo_stack = r ++ [x]) :
    st.redo = ({ st with redo_stack := r,
                         undo_stack := st.undo_stack ++ [x] ++ [x],
                         os_clipboard := (st.copy_to_clipboard x).os_clipboard }, some x) := by
  unfold ClipboardManager.redo
  rw [h, List.getLast?_concat]
  simp only [List.dropLast_concat]
  rfl

lemma add_to_history_history_drop (st : ClipboardManager) (a : ClipboardItem)
    (h : st.history.length ≤ st.max_history) :
    (st.add_to_history a).history
      = (st.history ++ [a]).drop ((st.history ++ [a]).length - st.max_history) := by
  show (if (st.history ++ [a]).length > st.max_history then (st.history ++ [a]).tail
        else st.history ++ [a]) = _
  by_cases hc : (st.history ++ [a]).length > st.max_history
  · have h1 : (st.history ++ [a]).length - st.max_history = 1 := by
      simp only [List.length_append, List.length_cons, List.length_nil] at hc ⊢; omega
    rw [if_pos hc, h1, ← List.drop_one]
  · have h0 : (st.history ++ [a]).length - st.max_history = 0 := by
      simp only [List.length_append, List.length_cons, List.length_nil] at hc ⊢; omega
    rw [if_neg hc, h0, List.drop_zero]

lemma add_to_history_max_history (st : ClipboardManager) (a : ClipboardItem) :
    (st.add_to_history a).max_history = st.max_history := rfl

lemma add_to_history_fold (L : List ClipboardItem) (st : ClipboardManager)
    (h : st.history.length ≤ st.max_history) :
    (L.foldl ClipboardManager.add_to_history st).history
        = (st.history ++ L).drop ((st.history ++ L).length - st.max_history)
    ∧ (L.foldl ClipboardManager.add_to_history st).max_history = st.max_history := by
  induction L generalizing st with
  | nil =>
    have h0 : st.history.length - st.max_history = 0 := by omega
    simp [h0]
  | cons a L ih =>
    have hlen : (st.add_to_history a).history.length ≤ (st.add_to_history a).max_history := by
      rw [add_to_history_max_history, add_to_history_history_drop st a h]
      simp only [List.length_drop, List.length_append, List.length_cons, List.length_nil]
      omega
    have ihs := ih (st.add_to_history a) hlen
    rw [List.foldl_cons]
    refine ⟨?_, by rw [ihs.2, add_to_history_max_history]⟩
    rw [ihs.1, add_to_history_max_history, add_to_history_history_drop st a h]
    have hX : st.history ++ a :: L = (st.history ++ [a]) ++ L := by simp
    rw [hX, ← List.drop_append_of_le_length (Nat.sub_le _ _), List.drop_drop]
    congr 1
    simp only [List.length_drop, List.length_append, List.length_cons, List.length_nil]
    omega

/-- C2: starting from a fresh store of capacity `max`, after recording any
sequence `L` of snapshots the history is exactly the last `max` recorded
snapshots (the entries evicted are exactly the earliest-recorded ones
beyond capacity), so its length never exceeds `max`; concretely, with
capacity 3 recording the texts a, b, c, d leaves history b, c, d. -/
theorem add_to_history_capacity_c2 :
    (∀ (max : Nat) (L : List ClipboardItem),
        (L.foldl ClipboardManager.add_to_history (ClipboardManager.init max)).history
          = L.drop (L.length - max))
    ∧ (∀ (max : Nat) (L : List ClipboardItem),
        (L.foldl ClipboardManager.add_to_history (ClipboardManager.init max)).history.length
          ≤ max)
    ∧ ([mkText "a", mkText "b", mkText "c", mkText "d"].foldl
          ClipboardManager.add_to_history (ClipboardManager.init 3)).history
        = [mkText "b", mkText "c", mkText "d"] := by
  have key : ∀ (max : Nat) (L : List ClipboardItem),
      (L.foldl ClipboardManager.add_to_history (ClipboardManager.init max)).history
        = L.drop (L.length - max) := by
    intro max L
    have hfold := add_to_history_fold L (ClipboardManager.init max)
      (by simp [ClipboardManager.init])
    simpa [ClipboardManager.init] using hfold.1
  refine ⟨key, ?_, ?_⟩
  · intro max L
    rw [key]
    simp only [List.length_drop]
    omega
  · rw [key]
    rfl

/-- Postcondition of `record(snapshot)` (claim C5) for `_add_to_history`:
the snapshot is appended, the oldest entry (index 0) is evicted exactly
when the capacity is exceeded, the redo stack is cleared whatever it held,
the cursor points at the newest entry, and nothing else changes. -/
def RecordPostcondition (st : ClipboardManager) (item : ClipboardItem) : Prop :=
  (st.add_to_history item).redo_stack = []
  ∧ (st.history.length < st.max_history →
      (st.add_to_history item).history = st.history ++ [item])
  ∧ (st.max_history ≤ st.history.length →
      (st.add_to_history item).history = (st.history ++ [item]).tail)
  ∧ (st.add_to_history item).current_index
      = ((st.add_to_history item).history.length : Int) - 1
  ∧ (st.add_to_history item).undo_stack = st.undo_stack
  ∧ (st.add_to_history item).max_history = st.max_history
  ∧ (st.add_to_history item).os_clipboard = st.os_clipboard

/-- C5: `record` always succeeds (it is a total function on states) and
has exactly the postcondition `RecordPostcondition`. -/
theorem add_to_history_postcondition_c5 (st : ClipboardManager) (item : ClipboardItem) :
    RecordPostcondition st item := by
  refine ⟨rfl, ?_, ?_, rfl, rfl, rfl, rfl⟩
  · intro hlt
    have hc : ¬ ((st.history ++ [item]).length > st.max_history) := by
      simp only [List.length_append, List.length_cons, List.length_nil]; omega
    show (if (st.history ++ [item]).length > st.max_history then (st.history ++ [item]).tail
          else st.history ++ [item]) = _
    rw [if_neg hc]
  · intro hge
    have hc : (st.history ++ [item]).length > st.max_history := by
      simp only [List.length_append, List.length_cons, List.length_nil]; omega
    show (if (st.history ++ [item]).length > st.max_history then (st.history ++ [item]).tail
          else st.history ++ [item]) = _
    rw [if_pos hc]

theorem add_to_history_postcondition_c5_witness :
    RecordPostcondition (ClipboardManager.init 3) (mkText "a") :=
  add_to_history_postcondition_c5 (ClipboardManager.init 3) (mkText "a")

/-- C6: on each polling tick a snapshot is emitted exactly under the
spec's condition — (a) successful read with no prior recorded content,
(b) text differing from the last recorded text, or (c) any image — and
text is de-duplicated across ticks: after a tick that read text `s`, an
immediately following tick reading the same `s` emits nothing. -/
theorem monitor_tick_emits_iff_c6 :
    (∀ (last_content : Option String) (read : ClipboardRead),
        (ClipboardManager.monitor_tick last_content read).1.isSome
          = emits_per_spec last_content read)
    ∧ (∀ (last_content : Option String) (s : String),
        (ClipboardManager.monitor_tick
            (ClipboardManager.monitor_tick last_content (ClipboardRead.text s)).2
            (ClipboardRead.text s)).1 = none) := by
  constructor
  · intro last read
    cases read with
    | failed => rfl
    | text s =>
      by_cases h : last = none ∨ some s ≠ last
      · rcases h with h | h <;>
          simp [ClipboardManager.monitor_tick, emits_per_spec, h]
      · push_neg at h
        simp [ClipboardManager.monitor_tick, emits_per_spec, h.1, h.2]
    | image p => rfl
  · intro last s
    by_cases h : last = none ∨ some s ≠ last
    · simp [ClipboardManager.monitor_tick, h]
    · push_neg at h
      simp [ClipboardManager.monitor_tick, h.1, h.2]

/-- Clipboard item whose content type is neither text nor image, used in
the C10 witness and the C3 counterexample. -/
def otherItem : ClipboardItem :=
  { content := "y", content_type := "files", timestamp := 0, tags := [], favorite := false }

/-- C10: for a snapshot whose content type is neither text nor image,
`copy_to_clipboard` leaves the OS clipboard untouched and the whole state
unchanged except that the item is appended to the undo stack. -/
theorem copy_to_clipboard_other_frame_c10 (st : ClipboardManager) (item : ClipboardItem)
    (h1 : item.content_type ≠ "text") (h2 : item.content_type ≠ "image") :
    st.copy_to_clipboard item = { st with undo_stack := st.undo_stack ++ [item] } := by
  unfold ClipboardManager.copy_to_clipboard
  rw [if_neg h1, if_neg h2]

theorem copy_to_clipboard_other_frame_c10_witness :
    (ClipboardManager.init 3).copy_to_clipboard otherItem
      = { ClipboardManager.init 3 with undo_stack := [otherItem] } :=
  copy_to_clipboard_other_frame_c10 (ClipboardManager.init 3) otherItem
    (by decide) (by decide)

/-- C1 (amended): `undo()` pops the top of `undoStack` and pushes it onto
`redoStack`; when `undoStack` is non-empty afterwards it re-applies the
new top through `copy_to_clipboard`, which appends that top to
`undoStack` a second time (so the stack ends as `dropLast ++ [new top]`),
and returns it, else it returns nothing.  `redo()` pops the top of
`redoStack`, re-applies it through `copy_to_clipboard`, and ends with the
popped item pushed onto `undoStack` twice — once directly and once by the
re-application — returning it.  After `copyToClipboard(s); undo()` the
return value is the previous top of `undoStack` (nothing if `s` was the
only entry) and `s` has been pushed onto `redoStack`. -/
theorem undo_redo_amended_c1 :
    (∀ st : ClipboardManager,
        (st.undo).2 = st.undo_stack.dropLast.getLast?
        ∧ (st.undo).1.redo_stack = st.redo_stack ++ st.undo_stack.getLast?.toList
        ∧ (st.undo).1.undo_stack
            = st.undo_stack.dropLast ++ st.undo_stack.dropLast.getLast?.toList
        ∧ (st.undo).1.os_clipboard
            = (match st.undo_stack.dropLast.getLast? with
               | some prev => (st.copy_to_clipboard prev).os_clipboard
               | none => st.os_clipboard))
    ∧ (∀ st : ClipboardManager,
        (st.redo).2 = st.redo_stack.getLast?
        ∧ (st.redo).1.redo_stack = st.redo_stack.dropLast
        ∧ (st.redo).1.undo_stack
            = st.undo_stack ++ (match st.redo_stack.getLast? with
               | some x => [x, x]
               | none => [])
        ∧ (st.redo).1.os_clipboard
            = (match st.redo_stack.getLast? with
               | some x => (st.copy_to_clipboard x).os_clipboard
               | none => st.os_clipboard))
    ∧ (∀ (st : ClipboardManager) (s : ClipboardItem),
        ((st.copy_to_clipboard s).undo).2 = st.undo_stack.getLast?
        ∧ ((st.copy_to_clipboard s).undo).1.redo_stack = st.redo_stack ++ [s]) := by
  have hundo : ∀ st : ClipboardManager,
      (st.undo).2 = st.undo_stack.dropLast.getLast?
      ∧ (st.undo).1.redo_stack = st.redo_stack ++ st.undo_stack.getLast?.toList
      ∧ (st.undo).1.undo_stack
          = st.undo_stack.dropLast ++ st.undo_stack.dropLast.getLast?.toList
      ∧ (st.undo).1.os_clipboard
          = (match st.undo_stack.dropLast.getLast? with
             | some prev => (st.copy_to_clipboard prev).os_clipboard
             | none => st.os_clipboard) := by
    intro st
    rcases st.undo_stack.eq_nil_or_concat' with h | ⟨u, x, h⟩
    · rw [undo_stack_nil st h, h]
      simp
    · rcases u.eq_nil_or_concat' with h2 | ⟨u2, p, h2⟩
      · subst h2
        rw [undo_stack_singleton st x (by simpa using h), h]
        simp
      · subst h2
        rw [undo_stack_concat_concat st u2 p x h, h]
        simp [List.dropLast_concat, List.getLast?_concat, Option.toList]
  have hredo : ∀ st : ClipboardManager,
      (st.redo).2 = st.redo_stack.getLast?
      ∧ (st.redo).1.redo_stack = st.redo_stack.dropLast
      ∧ (st.redo).1.undo_stack
          = st.undo_stack ++ (match st.redo_stack.getLast? with
             | some x => [x, x]
             | none => [])
      ∧ (st.redo).1.os_clipboard
          = (match st.redo_stack.getLast? with
             | some x => (st.copy_to_clipboard x).os_clipboard
             | none => st.os_clipboard) := by
    intro st
    rcases st.redo_stack.eq_nil_or_concat' with h | ⟨r, x, h⟩
    · rw [redo_stack_nil st h, h]
      simp
    · rw [redo_stack_concat st r x h, h]
      simp [List.dropLast_concat, List.getLast?_concat]
  refine ⟨hundo, hredo, ?_⟩
  intro st s
  have hstack : (st.copy_to_clipboard s).undo_stack = st.undo_stack ++ [s] :=
    copy_to_clipboard_undo_stack st s
  have h1 := (hundo (st.copy_to_clipboard s)).1
  have h2 := (hundo (st.copy_to_clipboard s)).2.1
  rw [hstack] at h1 h2
  rw [copy_to_clipboard_redo_stack] at h2
  constructor
  · rw [h1, List.dropLast_concat]
  · rw [h2, List.getLast?_concat]
    rfl

/-- State with one item on the redo stack and an empty undo stack, for
the C1 counterexample. -/
def redoCexState : ClipboardManager :=
  { max_history := 10, history := [mkText "b"], current_index := 0,
    undo_stack := [], redo_stack := [mkText "b"], os_clipboard := none }

/-- C1 counterexample: as stated, the claim requires `redo()` to push the
popped item onto `undoStack` exactly once, i.e. to leave
`undo_stack ++ [item]`.  On `redoCexState` the code leaves the item there
twice (once pushed directly, once appended by the `copy_to_clipboard`
re-application). -/
theorem redo_pushes_twice_c1_cex :
    (redoCexState.redo).1.undo_stack ≠ redoCexState.undo_stack ++ [mkText "b"]
    ∧ (redoCexState.redo).1.undo_stack = [mkText "b", mkText "b"]
    ∧ (redoCexState.redo).2 = some (mkText "b") := by decide

/-- The scenario of claim C3:
`copyToClipboard(s1); copyToClipboard(s2); undo(); redo()`. -/
def round_trip (st : ClipboardManager) (s1 s2 : ClipboardItem) :
    ClipboardManager × Option ClipboardItem :=
  (((st.copy_to_clipboard s1).copy_to_clipboard s2).undo).1.redo

/-- C3 (amended): after `copyToClipboard(s1); copyToClipboard(s2);
undo(); redo()`, `redo()` returns `s2`; the OS clipboard holds `s2`'s
content provided `s2` is a text or image snapshot (for any other content
type `copy_to_clipboard` never writes the OS clipboard). -/
theorem round_trip_amended_c3 (st : ClipboardManager) (s1 s2 : ClipboardItem) :
    (round_trip st s1 s2).2 = some s2
    ∧ ((s2.content_type = "text" ∨ s2.content_type = "image") →
        (round_trip st s1 s2).1.os_clipboard = some s2.content) := by
  unfold round_trip
  have h2 : ((st.copy_to_clipboard s1).copy_to_clipboard s2).undo_stack
      = st.undo_stack ++ [s1] ++ [s2] := rfl
  rw [undo_stack_concat_concat _ _ _ _ h2]
  rw [redo_stack_concat _ st.redo_stack s2 rfl]
  refine ⟨rfl, ?_⟩
  intro hty
  rcases hty with h | h
  · rw [copy_to_clipboard_os, h]
    simp
  · rw [copy_to_clipboard_os, h]
    simp

theorem round_trip_amended_c3_witness :
    (round_trip (ClipboardManager.init 5) (mkText "a") (mkText "b")).1.os_clipboard
      = some (mkText "b").content :=
  (round_trip_amended_c3 (ClipboardManager.init 5) (mkText "a") (mkText "b")).2 (Or.inl rfl)

/-- C3 counterexample: with `s2` of content type `"files"` (neither text
nor image) the sequence ends with the OS clipboard still holding `s1`'s
text, not `s2`'s content, although `redo()` does return `s2` — so the
round trip does not restore `s2` as the active clipboard content for
every snapshot. -/
theorem round_trip_c3_cex :
    (round_trip (ClipboardManager.init 5) (mkText "x") otherItem).2 = some otherItem
    ∧ (round_trip (ClipboardManager.init 5) (mkText "x") otherItem).1.os_clipboard
        ≠ some otherItem.content
    ∧ (round_trip (ClipboardManager.init 5) (mkText "x") otherItem).1.os_clipboard
        = some "x" := by decide

/-- Kinds of Python runtime values relevant to attribute lookup on a
`ClipboardManager` instance: bound methods (callable), `threading.Event`
objects (not callable), and other data attributes. -/
inductive PyAttr where
  | boundMethod (name : String)
  | threadingEvent (is_set : Bool)
  | dataAttr (name : String)
  deriving DecidableEq

/-- The methods defined on the `ClipboardManager` class body
(src/core/clipboard_manager.py): in particular `stop_monitoring` is
defined as a method at line 93. -/
def classDict : List (String × PyAttr) :=
  [("start_monitoring", PyAttr.boundMethod "start_monitoring"),
   ("stop_monitoring", PyAttr.boundMethod "stop_monitoring"),
   ("copy_to_clipboard", PyAttr.boundMethod "copy_to_clipboard"),
   ("undo", PyAttr.boundMethod "undo"),
   ("redo", PyAttr.boundMethod "redo"),
   ("add_clipboard_change_listener", PyAttr.boundMethod "add_clipboard_change_listener"),
   ("remove_clipboard_change_listener", PyAttr.boundMethod "remove_clipboard_change_listener")]

/-- The instance attributes `ClipboardManager.__init__` assigns (lines
58-69); line 64 assigns `self.stop_monitoring = threading.Event()`, a
fresh (cleared) event. -/
def instanceDictAfterInit : List (String × PyAttr) :=
  [("max_history", PyAttr.dataAttr "max_history"),
   ("history", PyAttr.dataAttr "history"),
   ("current_index", PyAttr.dataAttr "current_index"),
   ("clipboard", PyAttr.dataAttr "clipboard"),
   ("monitor_thread", PyAttr.dataAttr "monitor_thread"),
   ("stop_monitoring", PyAttr.threadingEvent false),
   ("on_clipboard_change_callbacks", PyAttr.dataAttr "on_clipboard_change_callbacks"),
   ("undo_stack", PyAttr.dataAttr "undo_stack"),
   ("redo_stack", PyAttr.dataAttr "redo_stack")]

/-- Python attribute lookup on an instance for plain attributes (class
functions are non-data descriptors): the instance dictionary shadows a
class attribute of the same name. -/
def lookup_attribute (name : String) : Option PyAttr :=
  match dictGet instanceDictAfterInit name with
  | some v => some v
  | none => dictGet classDict name

/-- Calling the looked-up attribute with no arguments, as in
`manager.stop_monitoring()`: a method call is dispatched; calling a
`threading.Event` (or any non-callable) raises `TypeError`. -/
def call_attribute : Option PyAttr → Except String Unit
  | some (PyAttr.boundMethod _) => Except.ok ()
  | some (PyAttr.threadingEvent _) =>
      Except.error "TypeError: Event object is not callable"
  | some (PyAttr.dataAttr _) => Except.error "TypeError: object is not callable"
  | none => Except.error "AttributeError"

/-- What `manager.stop_monitoring()` executes on any constructed
`ClipboardManager`. -/
def call_stop_monitoring : Except String Unit :=
  call_attribute (lookup_attribute "stop_monitoring")

/-- C4 (code bug): the class defines the method `stop_monitoring` (line
93), but `__init__` (line 64) stores a `threading.Event` under the same
instance attribute name, which shadows the method; so invoking
`stop_monitoring()` on any constructed manager — in particular when
monitoring is not running — raises `TypeError` instead of being the
logged-warning no-op the claim describes. -/
theorem stop_monitoring_shadowed_c4 :
    dictGet classDict "stop_monitoring" = some (PyAttr.boundMethod "stop_monitoring")
    ∧ lookup_attribute "stop_monitoring" = some (PyAttr.threadingEvent false)
    ∧ call_stop_monitoring = Except.error "TypeError: Event object is not callable" :=
  ⟨rfl, rfl, rfl⟩

/-- Outcome of invoking a boolean-returning plugin method in Python: a
normal boolean result, or an exception escaping the plugin code. -/
inductive PluginCallResult where
  | ok (b : Bool)
  | exn (msg : String)
  deriving DecidableEq

/-- One plugin object (src/core/plugin_manager.py, class `Plugin`), with
the behaviour its `enable()` and `on_clipboard_change()` exhibit when the
registry invokes them: plugins are arbitrary third-party code, so
`enable()` may return `True` or `False` or raise, and
`on_clipboard_change` may raise. -/
structure Plugin where
  name : String
  enable_result : PluginCallResult
  on_clipboard_change_raises : Bool
  deriving DecidableEq

/-- Registry state of `PluginManager` (lines 67-84): `plugins` is the
loaded map, `enabled_plugins` the enabled map; both are insertion-ordered
Python dicts. -/
structure PluginManager where
  plugins : List (String × Plugin)
  enabled_plugins : List (String × Plugin)
  deriving DecidableEq

/-- `PluginManager.load_plugin` (lines 110-165): returns the cached
instance if the module is already loaded; otherwise attempts the dynamic
import, modelled by `load_result` — `some p` when the file exists and a
`Plugin` subclass is found and instantiated as `p`, `none` for any of
the failure paths (missing file, no spec, no `Plugin` subclass, raised
exception) — caching the instance on success. -/
def PluginManager.load_plugin (pm : PluginManager) (module_name : String)
    (load_result : Option Plugin) : PluginManager × Option Plugin :=
  match dictGet pm.plugins module_name with
  | some p => (pm, some p)
  | none =>
    match load_result with
    | some p => ({ pm with plugins := dictSet pm.plugins module_name p }, some p)
    | none => (pm, none)

/-- `PluginManager.enable_plugin` (lines 167-198): fetch the plugin,
loading on demand if needed; if it cannot be obtained return `False`;
otherwise call its `enable()` inside `try`: on `True` add it to
`enabled_plugins` and return `True`, on `False` return `False`, and on an
exception catch it, log, and return `False` without touching the maps. -/
def PluginManager.enable_plugin (pm : PluginManager) (module_name : String)
    (load_result : Option Plugin) : PluginManager × Bool :=
  let loaded :=
    match dictGet pm.plugins module_name with
    | some p => (pm, some p)
    | none => pm.load_plugin module_name load_result
  match loaded with
  | (pm, none) => (pm, false)
  | (pm, some plugin) =>
    match plugin.enable_result with
    | PluginCallResult.ok true =>
        ({ pm with enabled_plugins := dictSet pm.enabled_plugins module_name plugin }, true)
    | PluginCallResult.ok false => (pm, false)
    | PluginCallResult.exn _ => (pm, false)

/-- The plugin that `enable_plugin` ends up invoking `enable()` on: the
cached instance when loaded, else whatever the on-demand load yields. -/
def PluginManager.resolved_plugin (pm : PluginManager) (module_name : String)
    (load_result : Option Plugin) : Option Plugin :=
  match dictGet pm.plugins module_name with
  | some p => some p
  | none => load_result

/-- Behaviour of `enable_plugin` as amended for claim C7; `pm'` and `b`
are the registry state and boolean it returns. -/
def EnablePluginSpec (pm : PluginManager) (module_name : String)
    (load_result : Option Plugin) (p : Plugin) : Prop :=
  ((pm.enable_plugin module_name load_result).2 = true ↔ p.enable_result = PluginCallResult.ok true)
  ∧ (dictGet (pm.enable_plugin module_name load_result).1.enabled_plugins module_name ≠ none
      ↔ (p.enable_result = PluginCallResult.ok true
         ∨ dictGet pm.enabled_plugins module_name ≠ none))
  ∧ (p.enable_result ≠ PluginCallResult.ok true →
      (pm.enable_plugin module_name load_result).1.enabled_plugins = pm.enabled_plugins)
  ∧ (dictGet pm.plugins module_name = none →
      dictGet (pm.enable_plugin module_name load_result).1.plugins module_name = some p)
  ∧ (∀ msg, p.enable_result = PluginCallResult.exn msg →
      (pm.enable_plugin module_name load_result).2 = false
      ∧ (pm.enable_plugin module_name load_result).1.plugins
          = (pm.load_plugin module_name load_result).1.plugins)

/-- C7 (amended): when `enable(id)` can obtain a plugin `p` (already
loaded, or loaded on demand), the call returns true iff `p.enable()`
returned true; afterwards `enabled` contains `id` iff `p.enable()`
returned true or `id` was already enabled beforehand (a previously
enabled plugin whose `enable()` refuses is NOT removed); whenever
`p.enable()` does not return true — in particular when it raises, which
is caught and logged — the enable step leaves `enabled` untouched, and
the loaded map holds exactly what loading produced. -/
theorem enable_plugin_amended_c7 (pm : PluginManager) (module_name : String)
    (load_result : Option Plugin) (p : Plugin)
    (hres : pm.resolved_plugin module_name load_result = some p) :
    EnablePluginSpec pm module_name load_result p := by
  unfold PluginManager.resolved_plugin at hres
  unfold EnablePluginSpec PluginManager.enable_plugin PluginManager.load_plugin
  rcases hget : dictGet pm.plugins module_name with _ | q
  · rw [hget] at hres
    rcases hload : load_result with _ | r
    · rw [hload] at hres; cases hres
    · rw [hload] at hres
      cases hres
      rcases hen : p.enable_result with b | msg
      · cases b
        · simp [hget, hload, hen, dictGet_dictSet_self]
        · simp [hget, hload, hen, dictGet_dictSet_self]
      · simp [hget, hload, hen, dictGet_dictSet_self]
  · rw [hget] at hres
    cases hres
    rcases hen : p.enable_result with b | msg
    · cases b
      · simp [hget, hen, dictGet_dictSet_self]
      · simp [hget, hen, dictGet_dictSet_self]
    · simp [hget, hen, dictGet_dictSet_self]

/-- Plugin used in the C7 witness: loads fine and enables successfully. -/
def okPlugin : Plugin :=
  { name := "Text Formatter", enable_result := PluginCallResult.ok true,
    on_clipboard_change_raises := false }

theorem enable_plugin_amended_c7_witness :
    EnablePluginSpec { plugins := [], enabled_plugins := [] } "text_formatter"
      (some okPlugin) okPlugin :=
  enable_plugin_amended_c7 { plugins := [], enabled_plugins := [] } "text_formatter"
    (some okPlugin) okPlugin rfl

/-- Plugin whose `enable()` returns `False` on this call, as third-party
plugin code may do. -/
def refusingPlugin : Plugin :=
  { name := "Refuser", enable_result := PluginCallResult.ok false,
    on_clipboard_change_raises := false }

/-- Registry in which `refusingPlugin` is loaded and currently enabled. -/
def pmRefuse : PluginManager :=
  { plugins := [("refuser", refusingPlugin)],
    enabled_plugins := [("refuser", refusingPlugin)] }

/-- C7 counterexample: the claim's biconditional — after `enable(id)`,
`enabled` contains `id` iff the plugin's `enable()` returned true — fails
when the plugin is already enabled and its `enable()` returns `False`:
the call returns `False`, yet `id` stays in `enabled_plugins` because
`enable_plugin` never removes entries. -/
theorem enable_plugin_iff_c7_cex :
    (pmRefuse.enable_plugin "refuser" none).2 = false
    ∧ dictGet (pmRefuse.enable_plugin "refuser" none).1.enabled_plugins "refuser" ≠ none := by
  decide

/-- The body of a plugin's `on_clipboard_change(item)` as invoked by the
registry: it either completes or raises (modelled by
`on_clipboard_change_raises`). -/
def Plugin.on_clipboard_change (p : Plugin) (_item : ClipboardItem) : Except String Unit :=
  if p.on_clipboard_change_raises then Except.error "plugin exception" else Except.ok ()

/-- The loop of `PluginManager.notify_clipboard_change` (lines 280-291)
over the values of `enabled_plugins`, in insertion (registration) order.
Each iteration invokes the plugin's `on_clipboard_change(item)` inside
`try`, catching and logging any exception; the returned trace records
each invocation `(plugin name, argument)` in order, and the whole loop
runs in `Except` so that an uncaught exception would surface as
`Except.error`. -/
def notify_loop (item : ClipboardItem) :
    List (String × Plugin) → Except String (List (String × ClipboardItem))
  | [] => Except.ok []
  | (name, p) :: rest =>
    match p.on_clipboard_change item with
    | Except.ok _ =>
      match notify_loop item rest with
      | Except.ok trace => Except.ok ((name, item) :: trace)
      | Except.error e => Except.error e
    | Except.error _ =>
      match notify_loop item rest with
      | Except.ok trace => Except.ok ((name, item) :: trace)
      | Except.error e => Except.error e

/-- `PluginManager.notify_clipboard_change` (lines 280-291). -/
def PluginManager.notify_clipboard_change (pm : PluginManager) (item : ClipboardItem) :
    Except String (List (String × ClipboardItem)) :=
  notify_loop item pm.enabled_plugins

/-- Plugin whose `on_clipboard_change` raises. -/
def raisingPlugin : Plugin :=
  { name := "A", enable_result := PluginCallResult.ok true,
    on_clipboard_change_raises := true }

/-- Plugin whose `on_clipboard_change` completes normally. -/
def quietPlugin : Plugin :=
  { name := "B", enable_result := PluginCallResult.ok true,
    on_clipboard_change_raises := false }

/-- C8: `notify(snapshot)` never propagates an exception to the caller
and delivers `onClipboardChange(snapshot)` to every member of
`enabled_plugins` exactly once, in registration order, whatever each
plugin does; and concretely with enabled plugins A (raising) and B,
notify still invokes B exactly once with the same snapshot. -/
theorem notify_clipboard_change_delivers_c8 :
    (∀ (pm : PluginManager) (item : ClipboardItem),
        pm.notify_clipboard_change item
          = Except.ok (pm.enabled_plugins.map (fun q => (q.1, item))))
    ∧ (∀ item : ClipboardItem,
        PluginManager.notify_clipboard_change
            { plugins := [("A", raisingPlugin), ("B", quietPlugin)],
              enabled_plugins := [("A", raisingPlugin), ("B", quietPlugin)] } item
          = Except.ok [("A", item), ("B", item)]) := by
  have key : ∀ (item : ClipboardItem) (l : List (String × Plugin)),
      notify_loop item l = Except.ok (l.map (fun q => (q.1, item))) := by
    intro item l
    induction l with
    | nil => rfl
    | cons hd rest ih =>
      obtain ⟨name, p⟩ := hd
      by_cases hr : p.on_clipboard_change_raises
      · simp [notify_loop, Plugin.on_clipboard_change, hr, ih]
      · simp [notify_loop, Plugin.on_clipboard_change, hr, ih]
  constructor
  · intro pm item
    exact key item pm.enabled_plugins
  · intro item
    exact key item [("A", raisingPlugin), ("B", quietPlugin)]

/-- Python string comparison (`<` on `str`) restricted to deciding `<=`:
lexicographic comparison of the character sequences by code point, a
proper prefix being smaller. -/
def py_str_le : List Char → List Char → Bool
  | [], _ => true
  | _ :: _, [] => false
  | a :: as, b :: bs => if a < b then true else if b < a then false else py_str_le as bs

/-- The ordering Python's `sorted` uses on the chord component strings. -/
def key_le (a b : List Char) : Prop := py_str_le a b = true

instance : DecidableRel key_le :=
  fun a b => inferInstanceAs (Decidable (py_str_le a b = true))

lemma py_str_le_total : ∀ a b : List Char, py_str_le a b = true ∨ py_str_le b a = true := by
  intro a
  induction a with
  | nil => intro b; left; rfl
  | cons x as ih =>
    intro b
    cases b with
    | nil => right; rfl
    | cons y bs =>
      rcases lt_trichotomy x y with h | h | h
      · left; simp [py_str_le, h]
      · subst h
        rcases ih bs with h' | h' <;> [left; right] <;> simp [py_str_le, h', lt_irrefl]
      · right; simp [py_str_le, h]

lemma py_str_le_trans : ∀ a b c : List Char,
    py_str_le a b = true → py_str_le b c = true → py_str_le a c = true := by
  intro a
  induction a with
  | nil => intro b c _ _; rfl
  | cons x as ih =>
    intro b c hab hbc
    cases b with
    | nil => simp [py_str_le] at hab
    | cons y bs =>
      cases c with
      | nil => simp [py_str_le] at hbc
      | cons z cs =>
        simp only [py_str_le] at hab hbc ⊢
        rcases lt_trichotomy x y with hxy | hxy | hxy
        · rcases lt_trichotomy y z with hyz | hyz | hyz
          · simp [lt_trans hxy hyz]
          · subst hyz; simp [hxy]
          · simp [hyz, not_lt_of_gt hyz] at hbc
        · subst hxy
          rcases lt_trichotomy x z with hxz | hxz | hxz
          · simp [hxz]
          · subst hxz
            simp [lt_irrefl] at hab hbc ⊢
            exact ih _ _ hab hbc
          · simp [hxz, not_lt_of_gt hxz] at hbc
        · simp [hxy, not_lt_of_gt hxy] at hab

lemma py_str_le_antisymm : ∀ a b : List Char,
    py_str_le a b = true → py_str_le b a = true → a = b := by
  intro a
  induction a with
  | nil =>
    intro b _ hba
    cases b with
    | nil => rfl
    | cons y bs => simp [py_str_le] at hba
  | cons x as ih =>
    intro b hab hba
    cases b with
    | nil => simp [py_str_le] at hab
    | cons y bs =>
      simp only [py_str_le] at hab hba
      rcases lt_trichotomy x y with h | h | h
      · simp [h, not_lt_of_gt h] at hba
      · subst h
        simp [lt_irrefl] at hab hba
        rw [ih bs hab hba]
      · simp [h, not_lt_of_gt h] at hab

instance : IsTotal (List Char) key_le := ⟨py_str_le_total⟩
instance : IsTrans (List Char) key_le := ⟨py_str_le_trans⟩
instance : IsAntisymm (List Char) key_le := ⟨py_str_le_antisymm⟩

/-- Python `keys.split("+")` on the character sequence of the string. -/
def split_plus : List Char → List (List Char)
  | [] => [[]]
  | c :: rest =>
    match split_plus rest with
    | [] => [[]]
    | p :: ps => if c = '+' then [] :: p :: ps else (c :: p) :: ps

/-- ASCII whitespace, for Python `str.strip()` (key strings are ASCII). -/
def is_ascii_space (c : Char) : Bool :=
  c = ' ' || c = '\t' || c = '\n' || c = '\r' || c = '\x0b' || c = '\x0c'

/-- Python `part.strip()`: drop whitespace from both ends. -/
def strip_chars (l : List Char) : List Char :=
  ((l.dropWhile is_ascii_space).reverse.dropWhile is_ascii_space).reverse

/-- Python `part.lower()` (ASCII case folding). -/
def lower_chars (l : List Char) : List Char := l.map Char.toLower

/-- Python `"+".join(parts)`. -/
def join_plus : List (List Char) → List Char
  | [] => []
  | [p] => p
  | p :: ps => p ++ '+' :: join_plus ps

/-- The processed component list of a chord string: split on `+`, then
strip and lower-case each part (`HotkeyManager._normalize_key_combo`,
line 205). -/
def combo_parts (keys : List Char) : List (List Char) :=
  (split_plus keys).map (fun p => lower_chars (strip_chars p))

/-- `HotkeyManager._normalize_key_combo` (src/core/hotkeys.py, lines
194-206): split on `+`, strip whitespace, lower-case, sort, and re-join
with `+`.  Python's `sorted` is modelled by insertion sort over the same
total order on strings, which produces the identical sorted sequence. -/
def normalize_key_combo (keys : List Char) : List Char :=
  join_plus (List.insertionSort key_le (combo_parts keys))

/-- State of `HotkeyManager` (src/core/hotkeys.py, lines 26-31):
`hotkeys` maps a normalized chord to `(callback, description)` (callbacks
modelled by an identifier), and `PYNPUT_AVAILABLE` tells whether the
pynput import succeeded. -/
structure HotkeyManager where
  hotkeys : List (List Char × Nat × List Char)
  pynput_available : Bool
  deriving DecidableEq

/-- `HotkeyManager.register_hotkey` (lines 145-172): fails when pynput is
unavailable; otherwise normalizes the chord and stores the binding,
overwriting (with a logged warning) any existing binding for the same
normalized chord. -/
def HotkeyManager.register_hotkey (hm : HotkeyManager) (keys : List Char)
    (callback : Nat) (description : List Char) : HotkeyManager × Bool :=
  if hm.pynput_available = false then (hm, false)
  else
    let key_combo := normalize_key_combo keys
    ({ hm with hotkeys := dictSet hm.hotkeys key_combo (callback, description) }, true)

/-- The chord-dispatch check of `_on_press` (lines 82-84): join the
sorted currently pressed keys with `+` and look the chord up in
`hotkeys`; returns the callback that would fire, if any. -/
def HotkeyManager.fired_callback (hm : HotkeyManager) (current_keys : List (List Char)) :
    Option Nat :=
  (dictGet hm.hotkeys (join_plus (List.insertionSort key_le current_keys))).map
    (fun cd => cd.1)

/-- Fresh hotkey manager with pynput available. -/
def hmFresh : HotkeyManager := { hotkeys := [], pynput_available := true }

/-- The manager after `register("ctrl+shift+c", f1)` then
`register("CTRL+SHIFT+C", f2)` (callbacks 1 and 2). -/
def hmTwo : HotkeyManager :=
  ((hmFresh.register_hotkey "ctrl+shift+c".data 1 []).1.register_hotkey
    "CTRL+SHIFT+C".data 2 []).1

/-- C9: chord normalization is order-, case- and whitespace-independent —
any two chord strings whose processed components (split on `+`, stripped,
lower-cased) are permutations of each other normalize to the same binding
key; consequently registering `ctrl+shift+c` and then `CTRL+SHIFT+C`
leaves exactly one binding, bound to the second callback, and pressing
shift, ctrl, c (any order — the pressed set is sorted before lookup)
fires only that second callback. -/
theorem normalize_key_combo_c9 :
    (∀ k₁ k₂ : List Char, (combo_parts k₁).Perm (combo_parts k₂) →
        normalize_key_combo k₁ = normalize_key_combo k₂)
    ∧ hmTwo.hotkeys.length = 1
    ∧ dictGet hmTwo.hotkeys (normalize_key_combo "ctrl+shift+c".data) = some (2, [])
    ∧ hmTwo.fired_callback ["shift".data, "c".data, "ctrl".data] = some 2 := by
  refine ⟨?_, by decide, by decide, by decide⟩
  intro k₁ k₂ hperm
  unfold normalize_key_combo
  congr 1
  exact List.eq_of_perm_of_sorted
    ((List.perm_insertionSort key_le (combo_parts k₁)).trans
      (hperm.trans (List.perm_insertionSort key_le (combo_parts k₂)).symm))
    (List.sorted_insertionSort key_le (combo_parts k₁))
    (List.sorted_insertionSort key_le (combo_parts k₂))

theorem normalize_key_combo_c9_witness :
    normalize_key_combo "Ctrl+Shift+C".data = normalize_key_combo " shift + ctrl + c ".data :=
  normalize_key_combo_c9.1 "Ctrl+Shift+C".data " shift + ctrl + c ".data (by decide)
